import Mathlib

/-!
Verification of the todo-list core (entity layer + store layer) of the
AraiKorDai todo-list repository.

The store layer (`TodoManager`, `App.handle_add_todo`) is embedded from
`src/main.py`.  The entity layer (`TodoItem`, `Priority`, `Status` and the
codec `to_dict`/`from_dict`) lives in a `models.py` module that is not part
of the source tree (only its tests and its callers are), so those
definitions are modelled from the specification (§3, §4.1), as are the two
store operations `update_todo` and `get_todo_by_id` that the source tree
only exercises through tests (spec §4.2).

The persisted collection is embedded as a list of flat records; a record's
optional `due_date` key is `Option String` where `none` means "key absent
from the mapping".
-/

namespace TodoApp

/-- Modelled from the spec: the `Priority` enumeration of the missing
`models.py` — a closed set {HIGH, MID, LOW} (spec §3). -/
inductive Priority where
  | HIGH
  | MID
  | LOW
deriving DecidableEq, Repr

/-- Modelled from the spec: the `Status` enumeration of the missing
`models.py` — a closed set {PENDING, COMPLETED} (spec §3). -/
inductive Status where
  | PENDING
  | COMPLETED
deriving DecidableEq, Repr

/-- The literal string tag of a priority (spec §6: serialized as the
enumeration's literal string tag). -/
def Priority.value : Priority → String
  | .HIGH => "HIGH"
  | .MID => "MID"
  | .LOW => "LOW"

/-- The literal string tag of a status (spec §6). -/
def Status.value : Status → String
  | .PENDING => "PENDING"
  | .COMPLETED => "COMPLETED"

/-- Modelled from the spec: `Priority(str)` of the missing `models.py` —
strict parse-or-fail lookup of a string tag (spec §9: "a strict
parse-or-fail decode function"). -/
def Priority.fromString (s : String) : Option Priority :=
  if s = "HIGH" then some .HIGH
  else if s = "MID" then some .MID
  else if s = "LOW" then some .LOW
  else none

/-- Modelled from the spec: `Status(str)` of the missing `models.py`. -/
def Status.fromString (s : String) : Option Status :=
  if s = "PENDING" then some .PENDING
  else if s = "COMPLETED" then some .COMPLETED
  else none

/-- Modelled from the spec: the `TodoItem` entity of the missing
`models.py` (spec §3).  `due_date = none` is the absent due date. -/
structure TodoItem where
  id : String
  title : String
  details : String
  priority : Priority
  status : Status
  owner : String
  created_at : String
  updated_at : String
  due_date : Option String
deriving DecidableEq, Repr

/-- A stored record: the flat string-keyed mapping of spec §6.  The eight
mandatory keys are the eight mandatory fields; `due_date = none` means the
`due_date` key is omitted from the mapping. -/
structure Record where
  id : String
  title : String
  details : String
  priority : String
  status : String
  owner : String
  created_at : String
  updated_at : String
  due_date : Option String
deriving DecidableEq, Repr

/-- Modelled from the spec: `TodoItem.to_dict` (Encode) of the missing
`models.py` — all mandatory keys present, `due_date` present only if not
absent (spec §4.1). -/
def TodoItem.to_dict (t : TodoItem) : Record :=
  { id := t.id
    title := t.title
    details := t.details
    priority := t.priority.value
    status := t.status.value
    owner := t.owner
    created_at := t.created_at
    updated_at := t.updated_at
    due_date := t.due_date }

/-- The decoding failure of spec §7: a stored record has a priority or
status value outside its enumeration. -/
inductive DecodingError where
  | invalidPriority (s : String)
  | invalidStatus (s : String)
deriving DecidableEq, Repr

/-- Modelled from the spec: `TodoItem.from_dict` (Decode) of the missing
`models.py` — fails with a DecodingError when `priority` or `status` is
not a member of its enumeration; `due_date` is absent in the result iff
the key is missing from the record (spec §4.1). -/
def TodoItem.from_dict (r : Record) : Except DecodingError TodoItem :=
  match Priority.fromString r.priority with
  | none => .error (.invalidPriority r.priority)
  | some p =>
    match Status.fromString r.status with
    | none => .error (.invalidStatus r.status)
    | some s =>
      .ok { id := r.id
            title := r.title
            details := r.details
            priority := p
            status := s
            owner := r.owner
            created_at := r.created_at
            updated_at := r.updated_at
            due_date := r.due_date }

theorem priority_fromString_of_value (p : Priority) :
    Priority.fromString p.value = some p := by
  cases p <;> rfl

theorem status_fromString_of_value (s : Status) :
    Status.fromString s.value = some s := by
  cases s <;> rfl

theorem priority_fromString_none_iff (s : String) :
    Priority.fromString s = none ↔ s ∉ ["HIGH", "MID", "LOW"] := by
  unfold Priority.fromString
  split_ifs with h1 h2 h3 <;> simp_all

theorem status_fromString_none_iff (s : String) :
    Status.fromString s = none ↔ s ∉ ["PENDING", "COMPLETED"] := by
  unfold Status.fromString
  split_ifs with h1 h2 <;> simp_all

theorem TodoItem.from_dict_to_dict (t : TodoItem) :
    TodoItem.from_dict (TodoItem.to_dict t) = Except.ok t := by
  cases t with
  | mk id title details priority status owner created_at updated_at due_date =>
    simp [TodoItem.to_dict, TodoItem.from_dict,
      priority_fromString_of_value, status_fromString_of_value]

theorem TodoItem.owner_of_from_dict (r : Record) (t : TodoItem)
    (h : TodoItem.from_dict r = .ok t) : t.owner = r.owner := by
  unfold TodoItem.from_dict at h
  rcases hp : Priority.fromString r.priority with _ | p <;> simp [hp] at h
  rcases hs : Status.fromString r.status with _ | s <;> simp [hs] at h
  subst h
  rfl

/-- C1. Round-trip law: for every valid `TodoItem x` (any title,
details, owner, priority, status, timestamps, and `due_date` present or
absent), decoding the encoding of `x` yields `x` field for field; in
particular the encoded record omits `due_date` exactly when it is absent
in `x`, and decoding restores that absence. -/
theorem decode_encode_roundtrip (x : TodoItem) :
    TodoItem.from_dict (TodoItem.to_dict x) = Except.ok x
      ∧ ((TodoItem.to_dict x).due_date = none ↔ x.due_date = none) :=
  ⟨TodoItem.from_dict_to_dict x, Iff.rfl⟩

/-- C4. Decode fails exactly when the record's `priority` is outside
{HIGH, MID, LOW} or its `status` is outside {PENDING, COMPLETED}; every
enumeration member's tag decodes to the matching member (so an in-set
value is never coerced to some default), and on success the decoded item
carries exactly the parsed members. -/
theorem from_dict_fails_iff_out_of_enum (r : Record) :
    ((TodoItem.from_dict r).isOk = false ↔
        (r.priority ∉ ["HIGH", "MID", "LOW"]
          ∨ r.status ∉ ["PENDING", "COMPLETED"]))
      ∧ (∀ p : Priority, Priority.fromString p.value = some p)
      ∧ (∀ s : Status, Status.fromString s.value = some s)
      ∧ (∀ t : TodoItem, TodoItem.from_dict r = .ok t →
          Priority.fromString r.priority = some t.priority
            ∧ Status.fromString r.status = some t.status) := by
  refine ⟨?_, priority_fromString_of_value, status_fromString_of_value, ?_⟩
  · unfold TodoItem.from_dict
    rcases hp : Priority.fromString r.priority with _ | p
    · have := (priority_fromString_none_iff r.priority).mp hp
      simp only [List.mem_cons, List.not_mem_nil, or_false] at this
      simp [Except.isOk, Except.toBool]
      tauto
    · rcases hs : Status.fromString r.status with _ | s
      · have := (status_fromString_none_iff r.status).mp hs
        simp only [List.mem_cons, List.not_mem_nil, or_false] at this
        simp [Except.isOk, Except.toBool]
        tauto
      · have hp' : r.priority ∈ ["HIGH", "MID", "LOW"] := by
          by_contra hmem
          rw [← priority_fromString_none_iff] at hmem
          simp [hmem] at hp
        have hs' : r.status ∈ ["PENDING", "COMPLETED"] := by
          by_contra hmem
          rw [← status_fromString_none_iff] at hmem
          simp [hmem] at hs
        simp only [List.mem_cons, List.not_mem_nil, or_false] at hp' hs'
        simp [Except.isOk, Except.toBool]
        tauto
  · intro t ht
    unfold TodoItem.from_dict at ht
    rcases hp : Priority.fromString r.priority with _ | p <;> simp [hp] at ht
    rcases hs : Status.fromString r.status with _ | s <;> simp [hs] at ht
    subst ht
    exact ⟨rfl, rfl⟩

/-!
The store layer.  `TodoManager`'s backing file is embedded as the
`List Record` it holds between operations; every operation takes the
loaded collection and returns the collection it writes back (plus its
return value).
-/

/-- Embeds `TodoManager.add_todo` (src/main.py lines 75-80): append the
encoded item to the loaded collection, save, return `True`. -/
def add_todo (todos : List Record) (todo : TodoItem) : List Record × Bool :=
  (todos ++ [todo.to_dict], true)

/-- Decoding of a list of records in order, stopping at the first failing
record: the decoding pass a Python list comprehension over
`TodoItem.from_dict` performs. -/
def decodeAll : List Record → Except DecodingError (List TodoItem)
  | [] => .ok []
  | r :: rest =>
    match TodoItem.from_dict r with
    | .error e => .error e
    | .ok t =>
      match decodeAll rest with
      | .error e => .error e
      | .ok ts => .ok (t :: ts)

/-- Embeds `TodoManager.get_user_todos` (src/main.py lines 82-87): the
comprehension `[TodoItem.from_dict(todo) for todo in todos if
todo["owner"] == username]` — each record is first checked against the
owner filter and only the records that pass it are decoded. -/
def get_user_todos (todos : List Record) (username : String) :
    Except DecodingError (List TodoItem) :=
  decodeAll (todos.filter (fun r => r.owner == username))

/-- The `GetUserTodos` that follows the spec words instead (spec §4.2:
"load the full collection, decode every record, filter to records whose
`owner` equals the given value"), for comparison with `get_user_todos`
embedded from the source. -/
def get_user_todos_specOrder (todos : List Record) (username : String) :
    Except DecodingError (List TodoItem) :=
  (decodeAll todos).map (fun ts => ts.filter (fun t => t.owner == username))

/-- Modelled from the spec: `TodoManager.update_todo` is absent from the
source tree (only its tests call it).  Spec §4.2 UpdateTodo: locate the
existing record by `item.id`; return failure, never an exception, both
when no record with that id exists and when the located record's owner
differs from `item.owner`; on match replace the record with the encoded
item in place and write the collection back, returning success. -/
def update_todo : List Record → TodoItem → List Record × Bool
  | [], _ => ([], false)
  | r :: rest, item =>
    if r.id = item.id then
      if r.owner = item.owner then (item.to_dict :: rest, true)
      else (r :: rest, false)
    else
      let result := update_todo rest item
      (r :: result.1, result.2)

/-- Modelled from the spec: `TodoManager.get_todo_by_id` is absent from the
source tree (only its tests call it).  Spec §4.2 GetTodoById: find the
first record whose `id` matches; if found it must also belong to `owner`
or the lookup is treated as not-found.  A found, owned record is decoded
(a DecodingError propagates, spec §7). -/
def get_todo_by_id :
    List Record → String → String → Except DecodingError (Option TodoItem)
  | [], _, _ => .ok none
  | r :: rest, i, owner =>
    if r.id = i then
      if r.owner = owner then (TodoItem.from_dict r).map some
      else .ok none
    else get_todo_by_id rest i owner

theorem decodeAll_isOk_false {l : List Record} {r : Record}
    (hmem : r ∈ l) (hbad : (TodoItem.from_dict r).isOk = false) :
    (decodeAll l).isOk = false := by
  induction l with
  | nil => cases hmem
  | cons x xs ih =>
    rcases List.mem_cons.mp hmem with rfl | hmem'
    · unfold decodeAll
      rcases hx : TodoItem.from_dict r with e | t
      · rfl
      · rw [hx] at hbad
        simp [Except.isOk, Except.toBool] at hbad
    · unfold decodeAll
      rcases hx : TodoItem.from_dict x with e | t
      · rfl
      · have hxs := ih hmem'
        rcases h2 : decodeAll xs with e | ts
        · rfl
        · rw [h2] at hxs
          simp [Except.isOk, Except.toBool] at hxs

theorem decodeAll_map_to_dict (l : List TodoItem) :
    decodeAll (l.map TodoItem.to_dict) = .ok l := by
  induction l with
  | nil => rfl
  | cons t ts ih =>
    unfold decodeAll
    rw [List.map_cons]
    simp only [TodoItem.from_dict_to_dict, ih]

/-- A sequence of `add_todo` calls applied to a loaded collection,
keeping the collection each call writes back. -/
def add_all (todos : List Record) (items : List TodoItem) : List Record :=
  items.foldl (fun st it => (add_todo st it).1) todos

theorem add_all_eq (todos : List Record) (items : List TodoItem) :
    add_all todos items = todos ++ items.map TodoItem.to_dict := by
  induction items generalizing todos with
  | nil => simp [add_all]
  | cons t ts ih =>
    show add_all (todos ++ [t.to_dict]) ts = _
    rw [ih, List.map_cons, List.append_assoc]
    rfl

/-- C3. After any sequence of AddTodo calls across any set of owners
(starting from the empty collection the store initializes), GetUserTodos
of an owner returns exactly the items that were added with that owner and
no item of a different owner, in insertion order as persisted, with no
sorting applied. -/
theorem get_user_todos_after_add_all (items : List TodoItem) (u : String) :
    get_user_todos (add_all [] items) u =
      Except.ok (items.filter (fun t => t.owner == u)) := by
  rw [get_user_todos, add_all_eq, List.nil_append, List.filter_map]
  have hcomp : ((fun r : Record => r.owner == u) ∘ TodoItem.to_dict)
      = fun t : TodoItem => t.owner == u := rfl
  rw [hcomp, decodeAll_map_to_dict]

/-- C2. UpdateTodo returns a failure result (a plain Bool, never an
exception) both when no record with the item's id exists and when every
record carrying that id has an owner differing from the item's owner; in
both cases the returned collection is the stored collection unchanged and
the result is the identical pair `(todos, false)`, so the caller cannot
distinguish the two cases. -/
theorem update_todo_fails_indistinguishably (todos : List Record)
    (item : TodoItem) :
    ((∀ r ∈ todos, r.id ≠ item.id) → update_todo todos item = (todos, false))
      ∧ ((∀ r ∈ todos, r.id = item.id → r.owner ≠ item.owner) →
          update_todo todos item = (todos, false)) := by
  have main : ∀ l : List Record,
      (∀ r ∈ l, r.id = item.id → r.owner ≠ item.owner) →
      update_todo l item = (l, false) := by
    intro l
    induction l with
    | nil => intro _; rfl
    | cons x xs ih =>
      intro h
      simp only [update_todo]
      by_cases hid : x.id = item.id
      · rw [if_pos hid, if_neg (h x (List.mem_cons_self x xs) hid)]
      · rw [if_neg hid, ih (fun r hr => h r (List.mem_cons_of_mem x hr))]
  exact ⟨fun h => main todos (fun r hr hid => absurd hid (h r hr)), main todos⟩

/-- C6. GetTodoById treats an id owned by a different user exactly as a
missing id: whenever every record carrying the queried id belongs to a
different owner (which covers both the no-such-id case and the
foreign-owner case), the result is the same not-found value, and a
successful lookup never hands the caller an item of another owner. -/
theorem get_todo_by_id_owner_isolation (todos : List Record) (i u : String) :
    ((∀ r ∈ todos, r.id = i → r.owner ≠ u) →
        get_todo_by_id todos i u = Except.ok none)
      ∧ (∀ t : TodoItem,
          get_todo_by_id todos i u = Except.ok (some t) → t.owner = u) := by
  induction todos with
  | nil =>
    refine ⟨fun _ => rfl, fun t ht => ?_⟩
    simp [get_todo_by_id] at ht
  | cons x xs ih =>
    constructor
    · intro h
      simp only [get_todo_by_id]
      by_cases hid : x.id = i
      · rw [if_pos hid, if_neg (h x (List.mem_cons_self x xs) hid)]
      · rw [if_neg hid]
        exact ih.1 (fun r hr => h r (List.mem_cons_of_mem x hr))
    · intro t ht
      simp only [get_todo_by_id] at ht
      by_cases hid : x.id = i
      · rw [if_pos hid] at ht
        by_cases hown : x.owner = u
        · rw [if_pos hown] at ht
          rcases hd : TodoItem.from_dict x with e | t' <;> rw [hd] at ht <;>
            simp [Except.map] at ht
          have hdt : TodoItem.from_dict x = .ok t := by
            rw [hd]
            simp [ht]
          rw [TodoItem.owner_of_from_dict x t hdt]
          exact hown
        · rw [if_neg hown] at ht
          simp at ht
      · rw [if_neg hid] at ht
        exact ih.2 t ht

/-- C7. When the collection contains a record matching the item's id with
the same owner (and no earlier record carries that id), UpdateTodo
succeeds, replaces exactly that record in place with the encoding of the
item, preserves the collection's length, and returns every other record —
before and after the replaced one, with their `created_at` fields —
unchanged. -/
theorem update_todo_replaces_in_place (pre post : List Record) (r : Record)
    (item : TodoItem) (hpre : ∀ r' ∈ pre, r'.id ≠ item.id)
    (hid : r.id = item.id) (hown : r.owner = item.owner) :
    update_todo (pre ++ r :: post) item = (pre ++ item.to_dict :: post, true)
      ∧ (pre ++ item.to_dict :: post).length = (pre ++ r :: post).length := by
  refine ⟨?_, by simp⟩
  induction pre with
  | nil =>
    simp only [List.nil_append, update_todo]
    rw [if_pos hid, if_pos hown]
  | cons x xs ih =>
    simp only [List.cons_append, update_todo]
    rw [if_neg (hpre x (List.mem_cons_self x xs))]
    simp only [List.append_eq]
    rw [ih (fun r' hr' => hpre r' (List.mem_cons_of_mem x hr'))]

/-- A record whose priority tag is outside the enumeration, owned by
"bob". -/
def bobBadRecord : Record :=
  { id := "bob-1"
    title := "Bob task"
    details := ""
    priority := "INVALID"
    status := "PENDING"
    owner := "bob"
    created_at := "2025-01-20T10:00:00"
    updated_at := "2025-01-20T10:00:00"
    due_date := none }

/-- A record whose priority tag is outside the enumeration, owned by
"alice". -/
def aliceBadRecord : Record :=
  { bobBadRecord with id := "alice-9", owner := "alice" }

/-- A well-formed record owned by "alice". -/
def aliceRecord : Record :=
  { id := "id-1"
    title := "Buy milk"
    details := "2 liters"
    priority := "MID"
    status := "PENDING"
    owner := "alice"
    created_at := "2025-01-20T10:00:00"
    updated_at := "2025-01-20T10:00:00"
    due_date := none }

/-- A well-formed record owned by "bob". -/
def bobRecord : Record :=
  { aliceRecord with id := "id-9", owner := "bob", priority := "LOW" }

/-- C5 counterexample. A store holding one record whose owner is "bob"
and whose priority is outside its enumeration: that record does not
decode, yet `get_user_todos` for "alice" succeeds with the empty list
instead of failing with the propagated DecodingError that the
decode-every-record-then-filter reading (`get_user_todos_specOrder`)
produces. -/
theorem get_user_todos_foreign_bad_record_ok :
    (TodoItem.from_dict bobBadRecord).isOk = false
      ∧ get_user_todos [bobBadRecord] "alice" = Except.ok []
      ∧ get_user_todos_specOrder [bobBadRecord] "alice"
          = Except.error (.invalidPriority "INVALID") :=
  ⟨rfl, rfl, rfl⟩

/-- C5 (amended). GetUserTodos decodes only the records that pass the
owner filter: a record whose owner matches the queried owner and fails to
decode makes the whole operation fail with a propagated DecodingError (no
partial result), while a record of a different owner — decodable or not —
is skipped undecoded and never affects the result. -/
theorem get_user_todos_filter_before_decode (todos : List Record)
    (u : String) :
    ((∃ r ∈ todos, r.owner = u ∧ (TodoItem.from_dict r).isOk = false) →
        (get_user_todos todos u).isOk = false)
      ∧ ∀ r : Record, r.owner ≠ u →
          get_user_todos (r :: todos) u = get_user_todos todos u := by
  constructor
  · rintro ⟨r, hmem, hown, hbad⟩
    exact decodeAll_isOk_false
      (List.mem_filter.mpr ⟨hmem, by simp [hown]⟩) hbad
  · intro r hr
    have hfalse : (r.owner == u) = false := beq_eq_false_iff_ne.mpr hr
    simp [get_user_todos, List.filter_cons, hfalse]

/-- C5 witness for the amended statement: an undecodable record owned by
"alice" fails the whole query for "alice", and prepending bob's
undecodable record to alice's well-formed store leaves the query for
"alice" untouched. -/
theorem get_user_todos_filter_before_decode_witness :
    (get_user_todos [aliceBadRecord] "alice").isOk = false
      ∧ get_user_todos (bobBadRecord :: [aliceRecord]) "alice"
          = get_user_todos [aliceRecord] "alice" := by
  constructor
  · exact (get_user_todos_filter_before_decode [aliceBadRecord] "alice").1
      ⟨aliceBadRecord, by simp, rfl, rfl⟩
  · exact (get_user_todos_filter_before_decode [aliceRecord] "alice").2
      bobBadRecord (by decide)

/-- C8. `add_todo` returns `True` unconditionally and performs no
uniqueness check on `id`: adding two items sharing one id succeeds both
times and leaves the collection holding both encoded records. -/
theorem add_todo_no_id_uniqueness (todos : List Record) (t1 t2 : TodoItem)
    (h : t1.id = t2.id) :
    (add_todo todos t1).2 = true
      ∧ (add_todo (add_todo todos t1).1 t2).2 = true
      ∧ (add_todo (add_todo todos t1).1 t2).1
          = todos ++ [t1.to_dict, t2.to_dict] := by
  refine ⟨rfl, rfl, ?_⟩
  simp [add_todo]

/-- The item "Buy milk" of the end-to-end scenario, owner "alice". -/
def sampleItem : TodoItem :=
  { id := "id-1"
    title := "Buy milk"
    details := "2 liters"
    priority := .MID
    status := .PENDING
    owner := "alice"
    created_at := "2025-01-20T10:00:00"
    updated_at := "2025-01-20T10:00:00"
    due_date := none }

/-- A second item deliberately reusing `sampleItem`'s id. -/
def sampleItemSameId : TodoItem :=
  { sampleItem with title := "Walk dog", owner := "bob" }

/-- C8 witness: two concrete items with the same id, both inserts
succeed and both records end up stored. -/
theorem add_todo_no_id_uniqueness_witness :
    (add_todo [] sampleItem).2 = true
      ∧ (add_todo (add_todo [] sampleItem).1 sampleItemSameId).2 = true
      ∧ (add_todo (add_todo [] sampleItem).1 sampleItemSameId).1
          = [] ++ [sampleItem.to_dict, sampleItemSameId.to_dict] :=
  add_todo_no_id_uniqueness [] sampleItem sampleItemSameId rfl

/-- C4 witness: a concrete record with priority "INVALID" fails to
decode. -/
theorem from_dict_fails_iff_out_of_enum_witness :
    (TodoItem.from_dict bobBadRecord).isOk = false :=
  (from_dict_fails_iff_out_of_enum bobBadRecord).1.mpr (Or.inl (by decide))

/-- A record with the same id as `aliceRecord` but a different owner. -/
def bobRecordSameId : Record :=
  { aliceRecord with owner := "bob" }

/-- C2 witness: updating alice's item against a store whose only record
with that id belongs to "bob", and against a store with no record of that
id, both return the identical unchanged-store failure pair. -/
theorem update_todo_fails_indistinguishably_witness :
    update_todo [bobRecordSameId] sampleItem = ([bobRecordSameId], false)
      ∧ update_todo [bobRecord] sampleItem = ([bobRecord], false) := by
  refine
    ⟨(update_todo_fails_indistinguishably [bobRecordSameId] sampleItem).2 ?_,
      (update_todo_fails_indistinguishably [bobRecord] sampleItem).1 ?_⟩ <;>
    decide

/-- C6 witness: looking up alice's valid id as "bob" yields not-found. -/
theorem get_todo_by_id_owner_isolation_witness :
    get_todo_by_id [aliceRecord] "id-1" "bob" = Except.ok none :=
  (get_todo_by_id_owner_isolation [aliceRecord] "id-1" "bob").1 (by decide)

/-- `sampleItem` after the end-to-end edit: completed, new updated_at. -/
def aliceEditedItem : TodoItem :=
  { sampleItem with status := .COMPLETED, updated_at := "2025-01-21T09:00:00" }

/-- C7 witness: updating alice's record stored after bob's record
replaces exactly alice's record in place and keeps the length. -/
theorem update_todo_replaces_in_place_witness :
    update_todo ([bobRecord] ++ aliceRecord :: []) aliceEditedItem
        = ([bobRecord] ++ aliceEditedItem.to_dict :: [], true)
      ∧ ([bobRecord] ++ aliceEditedItem.to_dict :: []).length
          = ([bobRecord] ++ aliceRecord :: []).length :=
  update_todo_replaces_in_place [bobRecord] [] aliceRecord aliceEditedItem
    (by decide) rfl rfl

/-!
The CLI add path.
-/

/-- Modelled from the spec: the `TodoItem` constructor of the missing
`models.py` (spec §4.1 Construct): the caller supplies title, details,
priority, status and owner; the system supplies a fresh id and the
current timestamp, with `created_at = updated_at` and `due_date`
defaulting to absent.  The fresh id and the clock reading are passed
explicitly here. -/
def TodoItem.construct (title details : String) (p : Priority) (s : Status)
    (owner fresh_id now : String) : TodoItem :=
  { id := fresh_id
    title := title
    details := details
    priority := p
    status := s
    owner := owner
    created_at := now
    updated_at := now
    due_date := none }

/-- Models Python `str.strip()`: remove leading and trailing whitespace.
Embedded at the character-list level so that it evaluates by kernel
reduction. -/
def strip (s : String) : String :=
  ⟨((s.data.dropWhile Char.isWhitespace).reverse.dropWhile
      Char.isWhitespace).reverse⟩

/-- Models Python `str.upper()` over the character list. -/
def upper (s : String) : String :=
  ⟨s.data.map Char.toUpper⟩

/-- Embeds the try/except of `App.handle_add_todo` (src/main.py lines
180-184): `Priority(priority_str)`, defaulting to MID on ValueError. -/
def priorityOrDefaultMID (s : String) : Priority :=
  match Priority.fromString s with
  | some p => p
  | none => .MID

/-- Embeds `App.handle_add_todo` (src/main.py lines 172-195): strip the
three prompted inputs — title, details, priority; no due-date or status
prompt exists in the function — uppercase the priority tag, default it to
MID when invalid, construct the item with status PENDING and owner equal
to the current user, and insert it with `add_todo`. -/
def handle_add_todo (todos : List Record) (current_user : String)
    (title_input details_input priority_input : String)
    (fresh_id now : String) : List Record × Bool :=
  let title := strip title_input
  let details := strip details_input
  let priority_str := upper (strip priority_input)
  let priority := priorityOrDefaultMID priority_str
  let todo := TodoItem.construct title details priority .PENDING
    current_user fresh_id now
  add_todo todos todo

/-- C9. Every item constructed and inserted through the CLI add path
carries status PENDING and an absent due date, whatever the user typed:
`handle_add_todo` prompts for neither a due date nor a status. -/
theorem handle_add_todo_pending_no_due_date (todos : List Record)
    (current_user title_input details_input priority_input fresh_id
      now : String) :
    ∃ t : TodoItem,
      handle_add_todo todos current_user title_input details_input
          priority_input fresh_id now = (todos ++ [t.to_dict], true)
        ∧ t.status = Status.PENDING ∧ t.due_date = none :=
  ⟨TodoItem.construct (strip title_input) (strip details_input)
      (priorityOrDefaultMID (upper (strip priority_input))) .PENDING
      current_user fresh_id now, rfl, rfl, rfl⟩

/-- C10. `handle_add_todo` does not reject empty input: when the stripped
title is the empty string it still constructs the item with an empty
title and persists it through `add_todo`, returning success rather than
aborting. -/
theorem handle_add_todo_empty_title_persisted (todos : List Record)
    (current_user title_input details_input priority_input fresh_id
      now : String) (h : strip title_input = "") :
    ∃ t : TodoItem,
      handle_add_todo todos current_user title_input details_input
          priority_input fresh_id now = (todos ++ [t.to_dict], true)
        ∧ t.title = "" :=
  ⟨TodoItem.construct (strip title_input) (strip details_input)
      (priorityOrDefaultMID (upper (strip priority_input))) .PENDING
      current_user fresh_id now, rfl, h⟩

/-- C10 witness: a whitespace-only title is stripped to empty and the
item is persisted anyway. -/
theorem handle_add_todo_empty_title_persisted_witness :
    ∃ t : TodoItem,
      handle_add_todo [] "alice" "   " "details" "HIGH" "id-7"
          "2025-01-20T10:00:00" = ([] ++ [t.to_dict], true)
        ∧ t.title = "" :=
  handle_add_todo_empty_title_persisted [] "alice" "   " "details" "HIGH"
    "id-7" "2025-01-20T10:00:00" (by decide)

end TodoApp
